import Mathlib

/-!
Verification development for the `go-gecko` CoinGecko API client
(package `coingecko`, file `v3/v3.go`).

The Go code is shallowly embedded: the HTTP transport (`*http.Client`)
becomes a function from requests to responses, Go's `(result, error)`
multiple return becomes the `GoOut` type (which also records runtime
panics), and each client method additionally returns the list of HTTP
requests it issued, so that "no network call happens" is expressible.
Go byte strings are modelled as Lean `String`s.
-/

/-- An HTTP response as seen by `doReq`: a status code and a raw body. -/
structure HttpResponse where
  statusCode : Nat
  body : String
deriving DecidableEq, Repr

/-- An HTTP GET request as built by `MakeReq`: the full URL and the headers. -/
structure HttpRequest where
  url : String
  header : List (String × List String)
deriving DecidableEq, Repr

/-- The injected HTTP transport (`*http.Client` in Go): it answers each
request with a response.  Transport-level failures are not modelled; every
claim under study concerns delivered responses. -/
abbrev Transport := HttpRequest → HttpResponse

/-- Errors produced by the client.  In Go every error is an untyped
`fmt.Errorf` value distinguished only by its message; the constructors here
additionally record the construction site, following the spec's taxonomy
(validation / API / decode / not-found).  The carried string is the Go
error message. -/
inductive GoErr where
  | validation (msg : String)
  | api (msg : String)
  | decode (msg : String)
  | notFound (msg : String)
deriving DecidableEq, Repr

/-- The outcome of a Go function returning `(res, err)` where `res` is a
nilable pointer/slice: `ret res err` carries both values (`none` models
`nil`), and `panic` models a Go runtime panic such as a nil-pointer
dereference. -/
inductive GoOut (α : Type) where
  | ret (res : Option α) (err : Option GoErr)
  | panic (msg : String)
deriving DecidableEq, Repr

/-- Message of the Go runtime panic raised by dereferencing a nil pointer. -/
def nilDerefMsg : String := "runtime error: invalid memory address or nil pointer dereference"

/-- Source line `var baseURL = "https://api.coingecko.com/api/v3"` -/
def baseURL : String := "https://api.coingecko.com/api/v3"

/-- Source line `var proURL = "https://pro-api.coingecko.com/api/v3"` -/
def proURL : String := "https://pro-api.coingecko.com/api/v3"

/-- The `Client` struct: transport, API key and base URL. -/
structure Client where
  httpClient : Transport
  apiKey : String
  url : String

/-- Constructor `NewClientWithURL(httpClient, url, apiKey)`.  The Go parameter
`httpClient *http.Client` is nilable, hence `Option Transport`; `dflt` stands
for the process-wide `http.DefaultClient` substituted when `nil` is
passed. -/
def NewClientWithURL (dflt : Transport) (httpClient : Option Transport) (url apiKey : String) : Client :=
  let httpClient := match httpClient with
    | none => dflt
    | some t => t
  { httpClient := httpClient, apiKey := apiKey, url := url }

/-- Constructor `NewClient(httpClient, apiKey)`: picks `proURL` when an API key is
supplied, `baseURL` otherwise, then delegates to `NewClientWithURL`. -/
def NewClient (dflt : Transport) (httpClient : Option Transport) (apiKey : String) : Client :=
  let url := baseURL
  let url := if apiKey ≠ "" then proURL else url
  NewClientWithURL dflt httpClient url apiKey

/-- The message `doReq` synthesizes for a non-200 status with an empty
body: `fmt.Errorf("..error_code: %d..", resp.StatusCode)`. -/
def synthMsg (code : Nat) : String :=
  "\x7b\"status\": \x7b\"error_code\": " ++ toString code ++ "\x7d\x7d"

/-- Helper `doReq(req, client)` after the response has been delivered and the
body read: `if 200 != resp.StatusCode` then an error (the raw body when
non-empty, otherwise the synthesized status message), else the body. -/
def doReq (resp : HttpResponse) : Except GoErr String :=
  let body := resp.body
  if 200 ≠ resp.statusCode then
    if body.length ≠ 0 then
      Except.error (GoErr.api body)
    else
      Except.error (GoErr.api (synthMsg resp.statusCode))
  else
    Except.ok body

/-- The request `MakeReq` builds: a GET on `url`, with the
`X-Cg-Pro-Api-Key` header attached exactly when the client has an API
key. -/
def Client.newRequest (c : Client) (url : String) : HttpRequest :=
  { url := url
    header := if c.apiKey ≠ "" then [("X-Cg-Pro-Api-Key", [c.apiKey])] else [] }

/-- Method `(c *Client) MakeReq(ctx, url)`: builds the request, runs it through
the transport and `doReq`, and (in this embedding) also reports the
singleton list of requests issued. -/
def Client.MakeReq (c : Client) (url : String) : Except GoErr String × List HttpRequest :=
  let req := c.newRequest url
  (doReq (c.httpClient req), [req])

/- ===================== query-string machinery (net/url) ================ -/

/-- Type `url.Values`, in insertion order (Go keeps a map of key to value
list; every call site here uses distinct keys, so a flat association list
is an equivalent rendering). -/
abbrev Values := List (String × String)

/-- The empty `url.Values{}`. -/
def Values.empty : Values := []

/-- Operation `params.Add(key, value)`: appends a binding. -/
def Values.add (v : Values) (key value : String) : Values :=
  v ++ [(key, value)]

/-- Operation `params.Set(key, value)`: replaces all bindings of `key` by one. -/
def Values.set (v : Values) (key value : String) : Values :=
  (v.filter fun p => !(p.1 == key)) ++ [(key, value)]

/-- Operation `params.Get(key)` (as an `Option`; Go returns `""` when absent). -/
def Values.get (v : Values) (key : String) : Option String :=
  (v.find? fun p => p.1 == key).map Prod.snd

/-- Upper-case hexadecimal digit, as used by Go's percent-encoding. -/
def hexUpper (n : Nat) : Char :=
  if n < 10 then Char.ofNat (48 + n) else Char.ofNat (55 + n)

/-- UTF-8 encoding of one character, byte by byte. -/
def utf8Bytes (c : Char) : List Nat :=
  let n := c.toNat
  if n < 128 then [n]
  else if n < 2048 then [192 + n / 64, 128 + n % 64]
  else if n < 65536 then [224 + n / 4096, 128 + (n / 64) % 64, 128 + n % 64]
  else [240 + n / 262144, 128 + (n / 4096) % 64, 128 + (n / 64) % 64, 128 + n % 64]

/-- Percent escape of one byte. -/
def escapeByte (b : Nat) : String :=
  String.mk ['%', hexUpper (b / 16), hexUpper (b % 16)]

/-- Function `url.QueryEscape` on one character: ASCII alphanumerics and
`-`, `_`, `.`, `~` pass through, space becomes `+`, everything else is
percent-encoded byte-wise. -/
def queryEscapeChar (c : Char) : String :=
  if c.isAlphanum || c = '-' || c = '_' || c = '.' || c = '~' then String.mk [c]
  else if c = ' ' then "+"
  else String.join ((utf8Bytes c).map escapeByte)

/-- Function `url.QueryEscape`. -/
def queryEscape (s : String) : String :=
  String.join (s.data.map queryEscapeChar)

/-- Insert a string into an already-sorted list (ascending). -/
def insertSorted (x : String) : List String → List String
  | [] => [x]
  | y :: ys => if x ≤ y then x :: y :: ys else y :: insertSorted x ys

/-- Ascending sort of the key set, as `url.Values.Encode` does. -/
def sortStrings (l : List String) : List String :=
  l.foldr insertSorted []

/-- Keep the first occurrence of each key. -/
def dedupKeysAux (seen : List String) : List String → List String
  | [] => []
  | k :: ks =>
    if seen.contains k then dedupKeysAux seen ks
    else k :: dedupKeysAux (k :: seen) ks

/-- Keep the first occurrence of each key. -/
def dedupKeys (l : List String) : List String := dedupKeysAux [] l

/-- Operation `params.Encode()`: keys sorted ascending, each binding rendered as
`escape(key)=escape(value)`, joined with `&`. -/
def Values.encode (v : Values) : String :=
  let keys := sortStrings (dedupKeys (v.map Prod.fst))
  String.intercalate "&"
    (keys.flatMap fun k =>
      (v.filter fun p => p.1 == k).map fun p => queryEscape k ++ "=" ++ queryEscape p.2)

/- ======================== theorems: C3, C4, C8 ========================= -/

/-- C3 counterexample: the claim "success iff the status is in the 2xx
range" is false for the code: `doReq` only accepts status exactly 200, so
a 201 response with body "ok" is turned into an API error even though 201
is in the 2xx range. -/
theorem doReq_status_201_counterexample :
    ¬ (∀ resp : HttpResponse,
        (∃ b, doReq resp = Except.ok b) ↔ (200 ≤ resp.statusCode ∧ resp.statusCode < 300)) := by
  intro h
  have h201 := (h { statusCode := 201, body := "ok" }).mpr (by decide)
  obtain ⟨b, hb⟩ := h201
  have hd : doReq { statusCode := 201, body := "ok" } = Except.error (GoErr.api "ok") := rfl
  rw [hd] at hb
  exact Except.noConfusion hb

/-- C3 (amended): `doReq` treats a response as success, returning its raw
body, exactly when the status code equals 200; every other status yields
an API-level error. -/
theorem doReq_success_iff_status_200 (resp : HttpResponse) :
    doReq resp = Except.ok resp.body ↔ resp.statusCode = 200 := by
  obtain ⟨s, b⟩ := resp
  simp only [doReq]
  by_cases h : s = 200
  · subst h
    simp
  · have h2 : (200 : Nat) ≠ s := fun hc => h hc.symm
    by_cases hb : b.length ≠ 0 <;> simp [h, h2, hb]

/-- C4: on every non-success response, `doReq` fails with an API error
whose message is the raw body when the body is non-empty, and otherwise
the synthesized message carrying the numeric status code. -/
theorem doReq_error_message_spec (resp : HttpResponse) (h : resp.statusCode ≠ 200) :
    doReq resp =
      Except.error (GoErr.api (if resp.body.length ≠ 0 then resp.body else synthMsg resp.statusCode)) := by
  obtain ⟨s, b⟩ := resp
  simp only [doReq]
  have h200 : (200 : Nat) ≠ s := fun hc => h hc.symm
  by_cases hb : b.length ≠ 0 <;> simp [h200, hb]

/-- C4 witness: status 404 with body `{"error":"nope"}` yields an API
error whose message equals that body, and status 500 with an empty body
yields an API error whose message encodes 500. -/
theorem doReq_error_message_spec_witness :
    doReq { statusCode := 404, body := "\x7b\"error\":\"nope\"\x7d" } =
      Except.error (GoErr.api "\x7b\"error\":\"nope\"\x7d") ∧
    doReq { statusCode := 500, body := "" } =
      Except.error (GoErr.api "\x7b\"status\": \x7b\"error_code\": 500\x7d\x7d") := by
  constructor
  · have h := doReq_error_message_spec { statusCode := 404, body := "\x7b\"error\":\"nope\"\x7d" } (by decide)
    simpa using h
  · have h := doReq_error_message_spec { statusCode := 500, body := "" } (by decide)
    simpa [synthMsg] using h

/-- C8: `NewClient` selects the pro host exactly when the API key is
non-empty and the public host otherwise; `NewClientWithURL` stores the
given URL (and key) unchanged, substitutes the default transport when
given none, and keeps a supplied transport as-is. -/
theorem newClient_base_url_selection (dflt tr : Transport) (hc : Option Transport) (u apiKey : String) :
    (NewClient dflt hc apiKey).url = (if apiKey = "" then baseURL else proURL) ∧
    (NewClientWithURL dflt hc u apiKey).url = u ∧
    (NewClientWithURL dflt hc u apiKey).apiKey = apiKey ∧
    (NewClientWithURL dflt none u apiKey).httpClient = dflt ∧
    (NewClientWithURL dflt (some tr) u apiKey).httpClient = tr := by
  refine ⟨?_, rfl, rfl, rfl, rfl⟩
  by_cases h : apiKey = "" <;> simp [NewClient, NewClientWithURL, h]

/- ================== format helpers and the types package ================ -/

/-- Modelled from the spec: `format.Bool2String` (the `format` package is
not among the sources under study); the spec says boolean flags are
serialized as the literal strings "true"/"false". -/
def Bool2String (b : Bool) : String := if b then "true" else "false"

/-- Modelled from the spec: `format.Int2String` (the `format` package is
not among the sources under study); renders the integer in decimal. -/
def Int2String (i : Int) : String := toString i

namespace types

/-- Modelled from the spec: the ordering token
`types.OrderTypeObject.MarketCapDesc` (the `types` package is not among
the sources under study); the spec says a missing order defaults to
"market cap descending". -/
def OrderTypeObject.MarketCapDesc : String := "market_cap_desc"

end types

/- ======================== query-parameter builders ===================== -/

/-- The `url.Values` built by `SimplePrice`: comma-joined ids and
currencies. -/
def simplePriceQuery (ids vsCurrencies : List String) : Values :=
  let idsParam := String.intercalate "," ids
  let vsCurrenciesParam := String.intercalate "," vsCurrencies
  let params := Values.empty
  let params := params.add "ids" idsParam
  let params := params.add "vs_currencies" vsCurrenciesParam
  params

/-- The `url.Values` built by `CoinsMarket` (after its vs_currency
validation): order defaults to `MarketCapDesc` when empty; ids and
price_change_percentage are comma-joined and only added when non-empty;
per_page and page are added together only when `0 < perPage ≤ 250`. -/
def coinsMarketQueryParams (vsCurrency : String) (ids : List String) (order : String)
    (perPage page : Int) (sparkline : Bool) (priceChangePercentage : List String) : Values :=
  let params := Values.empty
  let params := params.add "vs_currency" vsCurrency
  let order := if order.length = 0 then types.OrderTypeObject.MarketCapDesc else order
  let params := params.add "order" order
  let params := if ids.length ≠ 0 then params.add "ids" (String.intercalate "," ids) else params
  let params :=
    if perPage > 0 ∧ perPage ≤ 250 then
      (params.add "per_page" (Int2String perPage)).add "page" (Int2String page)
    else params
  let params := params.add "sparkline" (Bool2String sparkline)
  let params :=
    if priceChangePercentage.length ≠ 0 then
      params.add "price_change_percentage" (String.intercalate "," priceChangePercentage)
    else params
  params

/-- The `url.Values` built by `CoinsID` (after its id validation).  Note:
the source passes the `sparkline` argument into the `localization`
parameter (`params.Add("localization", format.Bool2String(sparkline))`);
the `localization` argument itself is never used. -/
def coinsIDQueryParams (localization tickers marketData communityData developerData sparkline : Bool) : Values :=
  let params := Values.empty
  let params := params.add "localization" (Bool2String sparkline)
  let params := params.add "tickers" (Bool2String tickers)
  let params := params.add "market_data" (Bool2String marketData)
  let params := params.add "community_data" (Bool2String communityData)
  let params := params.add "developer_data" (Bool2String developerData)
  let params := params.add "sparkline" (Bool2String sparkline)
  params

/-- The `url.Values` built by `CoinsIDTickers`: page only when positive. -/
def coinsIDTickersQueryParams (page : Int) : Values :=
  let params := Values.empty
  let params := if page > 0 then params.add "page" (Int2String page) else params
  params

/-- The `url.Values` built by `CoinsIDHistory`. -/
def coinsIDHistoryQueryParams (date : String) (localization : Bool) : Values :=
  let params := Values.empty
  let params := params.add "date" date
  let params := params.add "localization" (Bool2String localization)
  params

/-- The `url.Values` built by `CoinsIDMarketChart` (after validation). -/
def coinsIDMarketChartQueryParams (vs_currency days : String) : Values :=
  let params := Values.empty
  let params := params.add "vs_currency" vs_currency
  let params := params.add "days" days
  params

/- ========================= theorems: C2, C5 =========================== -/

/-- C2 (code bug): calling `CoinsID` with `localization = true` and all
other flags `false` emits the query field `localization=false` — the code
copies the `sparkline` argument into the `localization` parameter, so the
emitted field does not match the caller-supplied `localization` argument
(the other five fields do match their arguments here). -/
theorem coinsID_localization_uses_sparkline :
    (coinsIDQueryParams true false false false false false).get "localization" = some "false" ∧
    (coinsIDQueryParams true false false false false false).get "tickers" = some "false" ∧
    (coinsIDQueryParams true false false false false false).get "market_data" = some "false" ∧
    (coinsIDQueryParams true false false false false false).get "community_data" = some "false" ∧
    (coinsIDQueryParams true false false false false false).get "developer_data" = some "false" ∧
    (coinsIDQueryParams true false false false false false).get "sparkline" = some "false" ∧
    Bool2String true = "true" :=
  ⟨rfl, rfl, rfl, rfl, rfl, rfl, rfl⟩

/-- C5: `CoinsMarket` omits both `per_page` and `page` when
`perPage ≤ 0` or `perPage > 250`, and includes both together (with their
decimal renderings) when `0 < perPage ≤ 250`; when the order argument is
empty the `order` value defaults to `MarketCapDesc`. -/
theorem coinsMarket_paging_and_order_defaults (vsCurrency order : String)
    (ids priceChangePercentage : List String) (perPage page : Int) (sparkline : Bool) :
    (if perPage ≤ 0 ∨ 250 < perPage then
      (coinsMarketQueryParams vsCurrency ids order perPage page sparkline priceChangePercentage).get "per_page" = none ∧
      (coinsMarketQueryParams vsCurrency ids order perPage page sparkline priceChangePercentage).get "page" = none
    else
      (coinsMarketQueryParams vsCurrency ids order perPage page sparkline priceChangePercentage).get "per_page" = some (Int2String perPage) ∧
      (coinsMarketQueryParams vsCurrency ids order perPage page sparkline priceChangePercentage).get "page" = some (Int2String page)) ∧
    (coinsMarketQueryParams vsCurrency ids "" perPage page sparkline priceChangePercentage).get "order" =
      some types.OrderTypeObject.MarketCapDesc := by
  unfold coinsMarketQueryParams
  constructor
  · split_ifs <;> first
      | omega
      | exact ⟨rfl, rfl⟩
  · split_ifs <;> first
      | rfl
      | exact absurd (show String.length "" = 0 from rfl) (by assumption)

/- ===================== JSON values and encoding/json =================== -/

/-- JSON abstract syntax.  Numbers are kept as their source numeral (no
claim under study computes with a numeric value), strings are kept
verbatim (escape sequences are not modelled; no claim uses them). -/
inductive Json where
  | null
  | bool (b : Bool)
  | num (raw : String)
  | str (s : String)
  | arr (items : List Json)
  | obj (fields : List (String × Json))
deriving Repr

/-- Go `float32` values, modelled opaquely by the JSON numeral they were
decoded from; the zero value prints as `0`.  No claim under study
performs numeric computation on prices. -/
structure Float32 where
  raw : String
deriving DecidableEq, Repr

/-- The zero `float32`. -/
def Float32.zero : Float32 := { raw := "0" }

/-- Whitespace accepted between JSON tokens. -/
def isJsonWs (c : Char) : Bool := c = ' ' || c = '\t' || c = '\n' || c = '\r'

/-- Skip leading whitespace. -/
def skipWs : List Char → List Char
  | [] => []
  | c :: cs => if isJsonWs c then skipWs cs else c :: cs

/-- Consume an expected literal character sequence. -/
def dropLit : List Char → List Char → Option (List Char)
  | [], cs => some cs
  | _ :: _, [] => none
  | l :: ls, c :: cs => if c = l then dropLit ls cs else none

/-- Body of a JSON string after the opening quote, up to the closing
quote.  Escape sequences are rejected (not needed by any claim). -/
def parseStringBody : List Char → Option (List Char × List Char)
  | [] => none
  | c :: cs =>
    if c = '"' then some ([], cs)
    else if c = '\\' then none
    else match parseStringBody cs with
      | some (s, rest) => some (c :: s, rest)
      | none => none

/-- Longest digit run. -/
def takeDigits : List Char → List Char × List Char
  | [] => ([], [])
  | c :: cs =>
    if c.isDigit then
      let (d, r) := takeDigits cs
      (c :: d, r)
    else ([], c :: cs)

/-- A JSON number: optional minus, digits, optional fraction. -/
def parseNumber (cs : List Char) : Option (List Char × List Char) :=
  let (neg, cs1) := match cs with
    | '-' :: rest => (['-'], rest)
    | _ => (([] : List Char), cs)
  let (ds, cs2) := takeDigits cs1
  if ds.isEmpty then none
  else match cs2 with
    | '.' :: cs3 =>
      let (fs, cs4) := takeDigits cs3
      if fs.isEmpty then none else some (neg ++ ds ++ '.' :: fs, cs4)
    | _ => some (neg ++ ds, cs2)

mutual

/-- Fuel-indexed JSON value parser. -/
def parseVal : Nat → List Char → Option (Json × List Char)
  | 0, _ => none
  | Nat.succ fuel, cs =>
    match skipWs cs with
    | [] => none
    | c :: rest =>
      if c = 'n' then (dropLit ['u', 'l', 'l'] rest).map fun r => (Json.null, r)
      else if c = 't' then (dropLit ['r', 'u', 'e'] rest).map fun r => (Json.bool true, r)
      else if c = 'f' then (dropLit ['a', 'l', 's', 'e'] rest).map fun r => (Json.bool false, r)
      else if c = '"' then (parseStringBody rest).map fun p => (Json.str (String.mk p.1), p.2)
      else if c = '[' then
        match skipWs rest with
        | ']' :: r2 => some (Json.arr [], r2)
        | r2 =>
          match parseItems fuel r2 with
          | some (items, r3) => some (Json.arr items, r3)
          | none => none
      else if c = '\x7b' then
        match skipWs rest with
        | '\x7d' :: r2 => some (Json.obj [], r2)
        | r2 =>
          match parseFields fuel r2 with
          | some (fs, r3) => some (Json.obj fs, r3)
          | none => none
      else if c = '-' || c.isDigit then
        (parseNumber (c :: rest)).map fun p => (Json.num (String.mk p.1), p.2)
      else none

/-- Comma-separated array items up to `]`. -/
def parseItems : Nat → List Char → Option (List Json × List Char)
  | 0, _ => none
  | Nat.succ fuel, cs =>
    match parseVal fuel cs with
    | none => none
    | some (j, r) =>
      match skipWs r with
      | ',' :: r2 =>
        match parseItems fuel r2 with
        | some (js, r3) => some (j :: js, r3)
        | none => none
      | ']' :: r2 => some ([j], r2)
      | _ => none

/-- Comma-separated object fields up to the closing brace. -/
def parseFields : Nat → List Char → Option (List (String × Json) × List Char)
  | 0, _ => none
  | Nat.succ fuel, cs =>
    match skipWs cs with
    | '"' :: r =>
      match parseStringBody r with
      | none => none
      | some (k, r2) =>
        match skipWs r2 with
        | ':' :: r3 =>
          match parseVal fuel r3 with
          | none => none
          | some (v, r4) =>
            match skipWs r4 with
            | ',' :: r5 =>
              match parseFields fuel r5 with
              | some (fs, r6) => some ((String.mk k, v) :: fs, r6)
              | none => none
            | '\x7d' :: r5 => some ([(String.mk k, v)], r5)
            | _ => none
        | _ => none
    | _ => none

end

/-- The uniform error message this model uses for a body that is not
syntactically valid JSON (Go's `encoding/json` messages are richer; no
claim inspects the decode message text). -/
def jsonErrMsg : String := "invalid JSON body"

/-- The message for a JSON value of the wrong shape for its target. -/
def cannotUnmarshalMsg : String := "json: cannot unmarshal value"

/-- Parse a whole body: one JSON value followed only by whitespace.  The
fuel is sufficient for every input this development evaluates. -/
def jsonParse (s : String) : Option Json :=
  match parseVal (2 * s.length + 2) s.data with
  | some (j, rest) => if (skipWs rest).isEmpty then some j else none
  | none => none

/-- Function `json.Unmarshal`: parse, then decode with the target-specific
decoder. -/
def unmarshalWith {α : Type} (dec : Json → Except String α) (s : String) : Except String α :=
  match jsonParse s with
  | none => Except.error jsonErrMsg
  | some j => dec j

/- ======================= Go map helpers ================================ -/

/-- Go map indexing `m[k]`: the stored value, or the zero value `dflt`
when the key is absent (also when the map itself is nil). -/
def goMapGet {α : Type} (k : String) (m : List (String × α)) (dflt : α) : α :=
  match List.lookup k m with
  | some v => v
  | none => dflt

/-- Go map assignment `m[k] = v` (later assignments overwrite). -/
def goMapPut {α : Type} (m : List (String × α)) (k : String) (v : α) : List (String × α) :=
  if (m.find? fun p => p.1 == k).isSome then
    m.map fun p => if p.1 == k then (p.1, v) else p
  else m ++ [(k, v)]

/-- Build a Go map from decoded fields, in order. -/
def buildGoMap {α : Type} (l : List (String × α)) : List (String × α) :=
  l.foldl (fun m p => goMapPut m p.1 p.2) []

/- ========================= response schemas ============================ -/

/-- The nested price mapping `map[string]map[string]float32`. -/
abbrev SimplePriceMap := List (String × List (String × Float32))

namespace types

/-- Struct `types.SimpleSinglePrice`. -/
structure SimpleSinglePrice where
  ID : String
  Currency : String
  MarketPrice : Float32
deriving DecidableEq, Repr

/-- Schemas none of whose fields any claim inspects are modelled as the
raw decoded JSON value. -/
abbrev Ping := Json

/-- See `types.Ping`. -/
abbrev SimpleSupportedVSCurrencies := Json

/-- See `types.Ping`. -/
abbrev CoinList := Json

/-- See `types.Ping`. -/
abbrev CoinsMarket := Json

/-- See `types.Ping`. -/
abbrev CoinsID := Json

/-- See `types.Ping`. -/
abbrev CoinsIDTickers := Json

/-- See `types.Ping`. -/
abbrev CoinsIDHistory := Json

/-- See `types.Ping`. -/
abbrev EventsTypes := Json

/-- See `types.Ping`. -/
abbrev AssetPlatforms := Json

/-- See `types.Ping`. -/
abbrev EventCountryItem := Json

/-- See `types.Ping`. -/
abbrev ExchangeRatesItem := Json

/-- See `types.Ping`. -/
abbrev Global := Json

/-- Modelled from the spec: `types.CoinsIDMarketChart` (the `types`
package is not among the sources under study): three nilable series of
chart points.  Its zero value has all three series nil. -/
structure CoinsIDMarketChart where
  Prices : Option (List (List Float32)) := none
  MarketCaps : Option (List (List Float32)) := none
  TotalVolumes : Option (List (List Float32)) := none
deriving DecidableEq, Repr

/-- Modelled from the spec: `types.EventsCountries`, a wrapper with a
nilable `data` array. -/
structure EventsCountries where
  Data : Option (List Json) := none
deriving Repr

/-- Modelled from the spec: `types.ExchangeRatesResponse`, a wrapper with
a `rates` object (kept as raw JSON; no claim inspects it). -/
structure ExchangeRatesResponse where
  Rates : Json := Json.null
deriving Repr

/-- Modelled from the spec: `types.GlobalResponse`, a wrapper with a
`data` object (kept as raw JSON; no claim inspects it). -/
structure GlobalResponse where
  Data : Json := Json.null
deriving Repr

end types

/- =========================== JSON decoders ============================= -/

/-- Decode into a nilable pointer to a struct: `null` leaves the pointer
nil; an object fills it; anything else fails. -/
def decodePtrStruct (j : Json) : Except String (Option Json) :=
  match j with
  | Json.null => Except.ok none
  | Json.obj fs => Except.ok (some (Json.obj fs))
  | _ => Except.error cannotUnmarshalMsg

/-- Decode into a nilable pointer to a slice (or a nil slice value):
`null` leaves it nil; an array fills it; anything else fails. -/
def decodePtrArray (j : Json) : Except String (Option Json) :=
  match j with
  | Json.null => Except.ok none
  | Json.arr xs => Except.ok (some (Json.arr xs))
  | _ => Except.error cannotUnmarshalMsg

/-- Decode a `float32`: a numeral, or `null` which leaves the zero
value. -/
def decodeF32 : Json → Except String Float32
  | Json.num raw => Except.ok { raw := raw }
  | Json.null => Except.ok Float32.zero
  | _ => Except.error cannotUnmarshalMsg

/-- Decode every field of an object with the element decoder. -/
def decodeFields {α : Type} (dec : Json → Except String α) :
    List (String × Json) → Except String (List (String × α))
  | [] => Except.ok []
  | (k, v) :: fs =>
    match dec v, decodeFields dec fs with
    | Except.ok a, Except.ok rest => Except.ok ((k, a) :: rest)
    | Except.error e, _ => Except.error e
    | _, Except.error e => Except.error e

/-- Decode `map[string]float32`: `null` leaves the map nil/empty. -/
def decodeInnerMap (j : Json) : Except String (List (String × Float32)) :=
  match j with
  | Json.null => Except.ok []
  | Json.obj fs => (decodeFields decodeF32 fs).map buildGoMap
  | _ => Except.error cannotUnmarshalMsg

/-- Decode `map[string]map[string]float32` (the target of
`SimplePrice`); `null` leaves the pre-made map empty. -/
def decodeSimplePriceMap (j : Json) : Except String SimplePriceMap :=
  match j with
  | Json.null => Except.ok []
  | Json.obj fs => (decodeFields decodeInnerMap fs).map buildGoMap
  | _ => Except.error cannotUnmarshalMsg

/-- Decode one chart point (an array of numbers). -/
def decodeChartPoint : Json → Except String (List Float32)
  | Json.arr xs => xs.mapM decodeF32
  | _ => Except.error cannotUnmarshalMsg

/-- Decode a nilable series of chart points. -/
def decodeChartSeries : Json → Except String (Option (List (List Float32)))
  | Json.null => Except.ok none
  | Json.arr xs => (xs.mapM decodeChartPoint).map some
  | _ => Except.error cannotUnmarshalMsg

/-- Decode into the `CoinsIDMarketChart` struct value (not a pointer):
`null` leaves the zero value; missing or `null` fields leave nil series.
Partial decoding is modelled all-or-nothing: on failure the struct holds
its zero value. -/
def decodeCoinsIDMarketChart (j : Json) : Except String types.CoinsIDMarketChart :=
  match j with
  | Json.null => Except.ok {}
  | Json.obj fs =>
    match decodeChartSeries ((List.lookup "prices" fs).getD Json.null),
          decodeChartSeries ((List.lookup "market_caps" fs).getD Json.null),
          decodeChartSeries ((List.lookup "total_volumes" fs).getD Json.null) with
    | Except.ok p, Except.ok mc, Except.ok tv =>
      Except.ok { Prices := p, MarketCaps := mc, TotalVolumes := tv }
    | Except.error e, _, _ => Except.error e
    | _, Except.error e, _ => Except.error e
    | _, _, Except.error e => Except.error e
  | _ => Except.error cannotUnmarshalMsg

/-- Decode into `*types.EventsCountries`: `null` leaves the pointer nil;
an object fills the wrapper, whose `data` field is nil when absent or
`null`. -/
def decodeEventsCountriesResp (j : Json) : Except String (Option types.EventsCountries) :=
  match j with
  | Json.null => Except.ok none
  | Json.obj fs =>
    match List.lookup "data" fs with
    | none => Except.ok (some {})
    | some Json.null => Except.ok (some {})
    | some (Json.arr xs) => Except.ok (some { Data := some xs })
    | some _ => Except.error cannotUnmarshalMsg
  | _ => Except.error cannotUnmarshalMsg

/-- Decode into `*types.ExchangeRatesResponse`: `null` leaves the pointer
nil; an object fills the wrapper (its `rates` field kept as raw JSON). -/
def decodeExchangeRatesResp (j : Json) : Except String (Option types.ExchangeRatesResponse) :=
  match j with
  | Json.null => Except.ok none
  | Json.obj fs => Except.ok (some { Rates := (List.lookup "rates" fs).getD Json.null })
  | _ => Except.error cannotUnmarshalMsg

/-- Decode into `*types.GlobalResponse`: `null` leaves the pointer nil;
an object fills the wrapper (its `data` field kept as raw JSON). -/
def decodeGlobalResp (j : Json) : Except String (Option types.GlobalResponse) :=
  match j with
  | Json.null => Except.ok none
  | Json.obj fs => Except.ok (some { Data := (List.lookup "data" fs).getD Json.null })
  | _ => Except.error cannotUnmarshalMsg

/- =========================== API operations =========================== -/

/-- Operation `Ping` — GET `/ping`, decode `*types.Ping`. -/
def Client.Ping (c : Client) : GoOut types.Ping × List HttpRequest :=
  let url := c.url ++ "/ping"
  let mr := c.MakeReq url
  let out : GoOut types.Ping :=
    match mr.1 with
    | Except.error e => GoOut.ret none (some e)
    | Except.ok resp =>
      match unmarshalWith decodePtrStruct resp with
      | Except.error msg => GoOut.ret none (some (GoErr.decode msg))
      | Except.ok data => GoOut.ret data none
  (out, mr.2)

/-- Operation `SimplePrice` — GET `/simple/price?ids=..&vs_currencies=..`, decode
the nested price map. -/
def Client.SimplePrice (c : Client) (ids vsCurrencies : List String) :
    GoOut SimplePriceMap × List HttpRequest :=
  let params := simplePriceQuery ids vsCurrencies
  let url := c.url ++ "/simple/price?" ++ params.encode
  let mr := c.MakeReq url
  let out : GoOut SimplePriceMap :=
    match mr.1 with
    | Except.error e => GoOut.ret none (some e)
    | Except.ok resp =>
      match unmarshalWith decodeSimplePriceMap resp with
      | Except.error msg => GoOut.ret none (some (GoErr.decode msg))
      | Except.ok t => GoOut.ret (some t) none
  (out, mr.2)

/-- Operation `SimpleSinglePrice` — lower-cases id and currency, performs the
multi-price lookup with singleton lists, then extracts the row for the
original `id` (failing when it is absent or empty) and the cell for the
original `vsCurrency` (the zero value when that currency is absent). -/
def Client.SimpleSinglePrice (c : Client) (id vsCurrency : String) :
    GoOut types.SimpleSinglePrice × List HttpRequest :=
  let idParam := [id.toLower]
  let vcParam := [vsCurrency.toLower]
  let p := c.SimplePrice idParam vcParam
  let out : GoOut types.SimpleSinglePrice :=
    match p.1 with
    | GoOut.panic m => GoOut.panic m
    | GoOut.ret _ (some e) => GoOut.ret none (some e)
    | GoOut.ret none none => GoOut.panic nilDerefMsg
    | GoOut.ret (some t) none =>
      let curr := goMapGet id t []
      if curr.length = 0 then
        GoOut.ret none (some (GoErr.notFound "id or vsCurrency not existed"))
      else
        GoOut.ret (some { ID := id, Currency := vsCurrency,
                          MarketPrice := goMapGet vsCurrency curr Float32.zero }) none
  (out, p.2)

/-- Operation `SimpleSupportedVSCurrencies` — GET `/simple/supported_vs_currencies`. -/
def Client.SimpleSupportedVSCurrencies (c : Client) :
    GoOut types.SimpleSupportedVSCurrencies × List HttpRequest :=
  let url := c.url ++ "/simple/supported_vs_currencies"
  let mr := c.MakeReq url
  let out : GoOut types.SimpleSupportedVSCurrencies :=
    match mr.1 with
    | Except.error e => GoOut.ret none (some e)
    | Except.ok resp =>
      match unmarshalWith decodePtrArray resp with
      | Except.error msg => GoOut.ret none (some (GoErr.decode msg))
      | Except.ok data => GoOut.ret data none
  (out, mr.2)

/-- Operation `CoinsList` — GET `/coins/list?include_platform=..`
(`fmt.Sprintf("%v", b)` renders a bool as `true`/`false`). -/
def Client.CoinsList (c : Client) (includePlatform : Bool) :
    GoOut types.CoinList × List HttpRequest :=
  let params := Values.empty.set "include_platform" (if includePlatform then "true" else "false")
  let url := c.url ++ "/coins/list?" ++ params.encode
  let mr := c.MakeReq url
  let out : GoOut types.CoinList :=
    match mr.1 with
    | Except.error e => GoOut.ret none (some e)
    | Except.ok resp =>
      match unmarshalWith decodePtrArray resp with
      | Except.error msg => GoOut.ret none (some (GoErr.decode msg))
      | Except.ok data => GoOut.ret data none
  (out, mr.2)

/-- Operation `CoinsMarket` — validates `vs_currency`, then GET
`/coins/markets?..`. -/
def Client.CoinsMarket (c : Client) (vsCurrency : String) (ids : List String) (order : String)
    (perPage page : Int) (sparkline : Bool) (priceChangePercentage : List String) :
    GoOut types.CoinsMarket × List HttpRequest :=
  if vsCurrency.length = 0 then
    (GoOut.ret none (some (GoErr.validation "vs_currency is required")), [])
  else
    let params := coinsMarketQueryParams vsCurrency ids order perPage page sparkline priceChangePercentage
    let url := c.url ++ "/coins/markets?" ++ params.encode
    let mr := c.MakeReq url
    let out : GoOut types.CoinsMarket :=
      match mr.1 with
      | Except.error e => GoOut.ret none (some e)
      | Except.ok resp =>
        match unmarshalWith decodePtrArray resp with
        | Except.error msg => GoOut.ret none (some (GoErr.decode msg))
        | Except.ok data => GoOut.ret data none
    (out, mr.2)

/-- Operation `CoinsID` — validates `id`, then GET `/coins/{id}?..` (see
`coinsIDQueryParams` for the localization quirk). -/
def Client.CoinsID (c : Client) (id : String)
    (localization tickers marketData communityData developerData sparkline : Bool) :
    GoOut types.CoinsID × List HttpRequest :=
  if id.length = 0 then
    (GoOut.ret none (some (GoErr.validation "id is required")), [])
  else
    let params := coinsIDQueryParams localization tickers marketData communityData developerData sparkline
    let url := c.url ++ "/coins/" ++ id ++ "?" ++ params.encode
    let mr := c.MakeReq url
    let out : GoOut types.CoinsID :=
      match mr.1 with
      | Except.error e => GoOut.ret none (some e)
      | Except.ok resp =>
        match unmarshalWith decodePtrStruct resp with
        | Except.error msg => GoOut.ret none (some (GoErr.decode msg))
        | Except.ok data => GoOut.ret data none
    (out, mr.2)

/-- Operation `CoinsIDTickers` — validates `id`, then GET `/coins/{id}/tickers?..`. -/
def Client.CoinsIDTickers (c : Client) (id : String) (page : Int) :
    GoOut types.CoinsIDTickers × List HttpRequest :=
  if id.length = 0 then
    (GoOut.ret none (some (GoErr.validation "id is required")), [])
  else
    let params := coinsIDTickersQueryParams page
    let url := c.url ++ "/coins/" ++ id ++ "/tickers?" ++ params.encode
    let mr := c.MakeReq url
    let out : GoOut types.CoinsIDTickers :=
      match mr.1 with
      | Except.error e => GoOut.ret none (some e)
      | Except.ok resp =>
        match unmarshalWith decodePtrStruct resp with
        | Except.error msg => GoOut.ret none (some (GoErr.decode msg))
        | Except.ok data => GoOut.ret data none
    (out, mr.2)

/-- Operation `CoinsIDHistory` — validates `id` and `date`, then GET
`/coins/{id}/history?..`. -/
def Client.CoinsIDHistory (c : Client) (id date : String) (localization : Bool) :
    GoOut types.CoinsIDHistory × List HttpRequest :=
  if id.length = 0 ∨ date.length = 0 then
    (GoOut.ret none (some (GoErr.validation "id and date is required")), [])
  else
    let params := coinsIDHistoryQueryParams date localization
    let url := c.url ++ "/coins/" ++ id ++ "/history?" ++ params.encode
    let mr := c.MakeReq url
    let out : GoOut types.CoinsIDHistory :=
      match mr.1 with
      | Except.error e => GoOut.ret none (some e)
      | Except.ok resp =>
        match unmarshalWith decodePtrStruct resp with
        | Except.error msg => GoOut.ret none (some (GoErr.decode msg))
        | Except.ok data => GoOut.ret data none
    (out, mr.2)

/-- Operation `CoinsIDMarketChart` — validates `id`, `vs_currency` and `days`, then
GET `/coins/{id}/market_chart?..`; on decode failure it returns the
(zero-valued) struct together with the error, unlike every other
operation. -/
def Client.CoinsIDMarketChart (c : Client) (id vs_currency days : String) :
    GoOut types.CoinsIDMarketChart × List HttpRequest :=
  if id.length = 0 ∨ vs_currency.length = 0 ∨ days.length = 0 then
    (GoOut.ret none (some (GoErr.validation "id, vs_currency, and days is required")), [])
  else
    let params := coinsIDMarketChartQueryParams vs_currency days
    let url := c.url ++ "/coins/" ++ id ++ "/market_chart?" ++ params.encode
    let mr := c.MakeReq url
    let out : GoOut types.CoinsIDMarketChart :=
      match mr.1 with
      | Except.error e => GoOut.ret none (some e)
      | Except.ok resp =>
        match unmarshalWith decodeCoinsIDMarketChart resp with
        | Except.error msg => GoOut.ret (some {}) (some (GoErr.decode msg))
        | Except.ok m => GoOut.ret (some m) none
    (out, mr.2)

/-- Operation `EventsCountries` — GET `/events/countries`; returns `data.Data`,
dereferencing the decoded pointer (a `null` body leaves it nil and the
access panics). -/
def Client.EventsCountries (c : Client) :
    GoOut (List types.EventCountryItem) × List HttpRequest :=
  let url := c.url ++ "/events/countries"
  let mr := c.MakeReq url
  let out : GoOut (List types.EventCountryItem) :=
    match mr.1 with
    | Except.error e => GoOut.ret none (some e)
    | Except.ok resp =>
      match unmarshalWith decodeEventsCountriesResp resp with
      | Except.error msg => GoOut.ret none (some (GoErr.decode msg))
      | Except.ok none => GoOut.panic nilDerefMsg
      | Except.ok (some d) => GoOut.ret d.Data none
  (out, mr.2)

/-- Operation `EventsTypes` — GET `/events/types`. -/
def Client.EventsTypes (c : Client) : GoOut types.EventsTypes × List HttpRequest :=
  let url := c.url ++ "/events/types"
  let mr := c.MakeReq url
  let out : GoOut types.EventsTypes :=
    match mr.1 with
    | Except.error e => GoOut.ret none (some e)
    | Except.ok resp =>
      match unmarshalWith decodePtrStruct resp with
      | Except.error msg => GoOut.ret none (some (GoErr.decode msg))
      | Except.ok data => GoOut.ret data none
  (out, mr.2)

/-- Operation `ExchangeRates` — GET `/exchange_rates`; returns `&data.Rates`,
dereferencing the decoded pointer (a `null` body leaves it nil and the
access panics). -/
def Client.ExchangeRates (c : Client) : GoOut types.ExchangeRatesItem × List HttpRequest :=
  let url := c.url ++ "/exchange_rates"
  let mr := c.MakeReq url
  let out : GoOut types.ExchangeRatesItem :=
    match mr.1 with
    | Except.error e => GoOut.ret none (some e)
    | Except.ok resp =>
      match unmarshalWith decodeExchangeRatesResp resp with
      | Except.error msg => GoOut.ret none (some (GoErr.decode msg))
      | Except.ok none => GoOut.panic nilDerefMsg
      | Except.ok (some d) => GoOut.ret (some d.Rates) none
  (out, mr.2)

/-- Operation `AssetPlatforms` — GET `/asset_platforms`; the result is a slice
value (`nil` on a `null` body). -/
def Client.AssetPlatforms (c : Client) : GoOut types.AssetPlatforms × List HttpRequest :=
  let url := c.url ++ "/asset_platforms"
  let mr := c.MakeReq url
  let out : GoOut types.AssetPlatforms :=
    match mr.1 with
    | Except.error e => GoOut.ret none (some e)
    | Except.ok resp =>
      match unmarshalWith decodePtrArray resp with
      | Except.error msg => GoOut.ret none (some (GoErr.decode msg))
      | Except.ok data => GoOut.ret data none
  (out, mr.2)

/-- Operation `Global` — GET `/global`; returns `&data.Data`, dereferencing the
decoded pointer (a `null` body leaves it nil and the access panics). -/
def Client.Global (c : Client) : GoOut types.Global × List HttpRequest :=
  let url := c.url ++ "/global"
  let mr := c.MakeReq url
  let out : GoOut types.Global :=
    match mr.1 with
    | Except.error e => GoOut.ret none (some e)
    | Except.ok resp =>
      match unmarshalWith decodeGlobalResp resp with
      | Except.error msg => GoOut.ret none (some (GoErr.decode msg))
      | Except.ok none => GoOut.panic nilDerefMsg
      | Except.ok (some d) => GoOut.ret (some d.Data) none
  (out, mr.2)

/- =================== demo clients and cell notions ===================== -/

/-- The row of the nested price map for a coin id (Go map indexing:
the empty/nil inner map when absent). -/
def priceRow (t : SimplePriceMap) (id : String) : List (String × Float32) :=
  goMapGet id t []

/-- The (id, currency) cell of the nested price map. -/
def priceCell (t : SimplePriceMap) (id cur : String) : Option Float32 :=
  List.lookup cur (priceRow t id)

/-- A client whose transport answers every request with one fixed
response. -/
def constClient (u k : String) (resp : HttpResponse) : Client :=
  { httpClient := fun _ => resp, apiKey := k, url := u }

/-- A client whose transport always answers 200 with body `b`. -/
def failClient (u k b : String) : Client :=
  constClient u k { statusCode := 200, body := b }

/-- A 200 response whose body maps bitcoin to a price in eur only. -/
def demoBody : String := "\x7b\"bitcoin\":\x7b\"eur\":1\x7d\x7d"

/-- The decoded form of `demoBody`. -/
def demoMap : SimplePriceMap := [("bitcoin", [("eur", { raw := "1" })])]

/-- A client whose transport always answers 200 with `demoBody`. -/
def cDemo : Client := constClient "" "" { statusCode := 200, body := demoBody }

/-- A client whose transport always answers 200 with the body `null`. -/
def cNull : Client := constClient "" "" { statusCode := 200, body := "null" }

/-- Go map indexing agrees with `Option.getD` over `List.lookup`. -/
theorem goMapGet_eq_getD {α : Type} (k : String) (m : List (String × α)) (d : α) :
    goMapGet k m d = (List.lookup k m).getD d := by
  unfold goMapGet
  cases List.lookup k m <;> rfl

/- =================== theorems: C6, C7, C10, C1 ======================== -/

/-- C6: every required-parameter validation fires before any network
call: with the offending argument empty, each operation returns a
validation error with the source's message, and its request log is
empty (no call to the transport occurs). -/
theorem validation_before_any_request (c : Client) (id date vs days order : String)
    (ids pcp : List String) (perPage page pageT : Int) (l tk md cd dd sp loc : Bool) :
    c.CoinsMarket "" ids order perPage page sp pcp =
      (GoOut.ret none (some (GoErr.validation "vs_currency is required")), []) ∧
    c.CoinsID "" l tk md cd dd sp =
      (GoOut.ret none (some (GoErr.validation "id is required")), []) ∧
    c.CoinsIDTickers "" pageT =
      (GoOut.ret none (some (GoErr.validation "id is required")), []) ∧
    c.CoinsIDHistory "" date loc =
      (GoOut.ret none (some (GoErr.validation "id and date is required")), []) ∧
    c.CoinsIDHistory id "" loc =
      (GoOut.ret none (some (GoErr.validation "id and date is required")), []) ∧
    c.CoinsIDMarketChart "" vs days =
      (GoOut.ret none (some (GoErr.validation "id, vs_currency, and days is required")), []) ∧
    c.CoinsIDMarketChart id "" days =
      (GoOut.ret none (some (GoErr.validation "id, vs_currency, and days is required")), []) ∧
    c.CoinsIDMarketChart id vs "" =
      (GoOut.ret none (some (GoErr.validation "id, vs_currency, and days is required")), []) := by
  refine ⟨rfl, rfl, rfl, rfl, ?_, rfl, ?_, ?_⟩
  · have h : id.length = 0 ∨ ("" : String).length = 0 := Or.inr rfl
    simp [Client.CoinsIDHistory, h]
  · have h : id.length = 0 ∨ ("" : String).length = 0 ∨ days.length = 0 :=
      Or.inr (Or.inl rfl)
    simp [Client.CoinsIDMarketChart, h]
  · have h : id.length = 0 ∨ vs.length = 0 ∨ ("" : String).length = 0 :=
      Or.inr (Or.inr rfl)
    simp [Client.CoinsIDMarketChart, h]

/-- C7: `SimpleSinglePrice` lower-cases both the identifier and the
currency before building the multi-price request: the one request it
sends is exactly the `/simple/price` request whose query is built from
the lower-cased singleton lists. -/
theorem simpleSinglePrice_lowercases_request (c : Client) (id vsCurrency : String) :
    (c.SimpleSinglePrice id vsCurrency).2 =
      [c.newRequest
        (c.url ++ "/simple/price?" ++ (simplePriceQuery [id.toLower] [vsCurrency.toLower]).encode)] :=
  rfl

/-- C10: the body `null` is syntactically valid JSON that decodes (with
status 200) to a nil pointer, and `EventsCountries`, `ExchangeRates` and
`Global` all dereference that nil pointer: they panic instead of
returning a result or an error. -/
theorem null_body_nil_pointer_panic :
    jsonParse "null" = some Json.null ∧
    (cNull.EventsCountries).1 = GoOut.panic nilDerefMsg ∧
    (cNull.ExchangeRates).1 = GoOut.panic nilDerefMsg ∧
    (cNull.Global).1 = GoOut.panic nilDerefMsg :=
  ⟨rfl, rfl, rfl, rfl⟩

/-- C1 counterexample: with a transport answering every request with
`{"bitcoin":{"eur":1}}`, the (bitcoin, usd) cell of the multi-price
result is absent, yet `SimpleSinglePrice(bitcoin, usd)` does not fail
with the not-found error: it succeeds with market price zero (the row
for bitcoin is non-empty, and the missing currency yields the float32
zero value). -/
theorem simpleSinglePrice_missing_cell_counterexample :
    (cDemo.SimplePrice ["bitcoin"] ["usd"]).1 = GoOut.ret (some demoMap) none ∧
    priceCell demoMap "bitcoin" "usd" = none ∧
    (cDemo.SimpleSinglePrice "bitcoin" "usd").1 =
      GoOut.ret (some { ID := "bitcoin", Currency := "usd", MarketPrice := Float32.zero }) none :=
  ⟨rfl, rfl, rfl⟩

/-- C1 (amended): for non-empty id and currency, whenever the multi-price
lookup on the lower-cased singleton lists succeeds with map `t`,
`SimpleSinglePrice` fails with the not-found error exactly when the row
of `t` for the (original-case) id is absent or empty; otherwise it
succeeds and its market price is the (id, currency) cell of `t` when
present and the float32 zero value when that currency cell is absent. -/
theorem simpleSinglePrice_refines_simplePrice (c : Client) (id vsCurrency : String)
    (hid : id ≠ "") (hcur : vsCurrency ≠ "") (t : SimplePriceMap)
    (hp : (c.SimplePrice [id.toLower] [vsCurrency.toLower]).1 = GoOut.ret (some t) none) :
    (c.SimpleSinglePrice id vsCurrency).1 =
      if priceRow t id = [] then
        GoOut.ret none (some (GoErr.notFound "id or vsCurrency not existed"))
      else
        GoOut.ret (some { ID := id, Currency := vsCurrency,
                          MarketPrice := (priceCell t id vsCurrency).getD Float32.zero }) none := by
  simp only [Client.SimpleSinglePrice, hp]
  simp only [priceCell, priceRow, goMapGet_eq_getD, List.length_eq_zero]

/-- C1 witness: the amended statement evaluated at the demo client. -/
theorem simpleSinglePrice_refines_simplePrice_witness :
    (cDemo.SimpleSinglePrice "bitcoin" "usd").1 =
      GoOut.ret (some { ID := "bitcoin", Currency := "usd",
                        MarketPrice := (priceCell demoMap "bitcoin" "usd").getD Float32.zero }) none := by
  have h := simpleSinglePrice_refines_simplePrice cDemo "bitcoin" "usd" (by decide) (by decide)
    demoMap rfl
  rw [h, if_neg (by decide)]

/-- C9: when the transport delivers status 200 with a body that is not
decodable JSON, `CoinsIDMarketChart` returns the non-nil (zero-valued)
chart struct together with the decode error, while every other operation
returns a nil result with the decode error (`SimpleSinglePrice`
propagates the inner lookup's decode failure). -/
theorem decode_failure_result_shapes (u k b : String) (hb : jsonParse b = none)
    (id date vs days : String) (hid : id.length ≠ 0) (hdate : date.length ≠ 0)
    (hvs : vs.length ≠ 0) (hdays : days.length ≠ 0)
    (order : String) (ids vcs pcp : List String) (perPage page pageT : Int)
    (loc tick md cd dd spark iplat : Bool) :
    ((failClient u k b).CoinsIDMarketChart id vs days).1 =
      GoOut.ret (some {}) (some (GoErr.decode jsonErrMsg)) ∧
    ((failClient u k b).Ping).1 = GoOut.ret none (some (GoErr.decode jsonErrMsg)) ∧
    ((failClient u k b).SimplePrice ids vcs).1 =
      GoOut.ret none (some (GoErr.decode jsonErrMsg)) ∧
    ((failClient u k b).SimpleSinglePrice id vs).1 =
      GoOut.ret none (some (GoErr.decode jsonErrMsg)) ∧
    ((failClient u k b).SimpleSupportedVSCurrencies).1 =
      GoOut.ret none (some (GoErr.decode jsonErrMsg)) ∧
    ((failClient u k b).CoinsList iplat).1 = GoOut.ret none (some (GoErr.decode jsonErrMsg)) ∧
    ((failClient u k b).CoinsMarket vs ids order perPage page spark pcp).1 =
      GoOut.ret none (some (GoErr.decode jsonErrMsg)) ∧
    ((failClient u k b).CoinsID id loc tick md cd dd spark).1 =
      GoOut.ret none (some (GoErr.decode jsonErrMsg)) ∧
    ((failClient u k b).CoinsIDTickers id pageT).1 =
      GoOut.ret none (some (GoErr.decode jsonErrMsg)) ∧
    ((failClient u k b).CoinsIDHistory id date loc).1 =
      GoOut.ret none (some (GoErr.decode jsonErrMsg)) ∧
    ((failClient u k b).EventsCountries).1 = GoOut.ret none (some (GoErr.decode jsonErrMsg)) ∧
    ((failClient u k b).EventsTypes).1 = GoOut.ret none (some (GoErr.decode jsonErrMsg)) ∧
    ((failClient u k b).ExchangeRates).1 = GoOut.ret none (some (GoErr.decode jsonErrMsg)) ∧
    ((failClient u k b).AssetPlatforms).1 = GoOut.ret none (some (GoErr.decode jsonErrMsg)) ∧
    ((failClient u k b).Global).1 = GoOut.ret none (some (GoErr.decode jsonErrMsg)) := by
  refine ⟨?_, ?_, ?_, ?_, ?_, ?_, ?_, ?_, ?_, ?_, ?_, ?_, ?_, ?_, ?_⟩
  all_goals
    simp [failClient, constClient, Client.CoinsIDMarketChart, Client.Ping, Client.SimplePrice,
      Client.SimpleSinglePrice, Client.SimpleSupportedVSCurrencies, Client.CoinsList,
      Client.CoinsMarket, Client.CoinsID, Client.CoinsIDTickers, Client.CoinsIDHistory,
      Client.EventsCountries, Client.EventsTypes, Client.ExchangeRates, Client.AssetPlatforms,
      Client.Global, Client.MakeReq, doReq, unmarshalWith, hb, hid, hdate, hvs, hdays]

/-- C9 witness: the decode-failure shapes evaluated at a transport
answering 200 with the non-JSON body `nope`. -/
theorem decode_failure_result_shapes_witness :
    ((failClient "u" "" "nope").CoinsIDMarketChart "a" "v" "1").1 =
      GoOut.ret (some {}) (some (GoErr.decode jsonErrMsg)) ∧
    ((failClient "u" "" "nope").Ping).1 = GoOut.ret none (some (GoErr.decode jsonErrMsg)) := by
  have h := decode_failure_result_shapes "u" "" "nope" rfl "a" "d" "v" "1"
    (by decide) (by decide) (by decide) (by decide) "" [] [] [] 1 1 1
    false false false false false false false
  exact ⟨h.1, h.2.1⟩
